import Mathlib

/-!
Verification of the cspjs channel library (channel.js) and task state machine.

The channel library is embedded as an explicit operational model: channels
hold a queue of values-with-completion-continuations and a queue of pending
read continuations; `sendValue`/`sendError` defer continuation invocation by
appending to a FIFO tick queue (the embedding of `nextTick`), and a scheduler
`step`/`run` drains that queue.  JS callbacks are defunctionalized into the
inductive `Cont`, whose interpreter `runCont` transcribes the bodies of the
closures appearing in channel.js (merge piper, map/filter/reduce pull loops,
takeN accumulation).
-/

namespace Cspjs

/-- JS values flowing through channels: null, booleans, numbers, strings,
arrays, MergedChannelValue records (fields ix, chan, err, val) and Error
objects. -/
inductive Val where
  | null
  | bool (b : Bool)
  | int (n : Int)
  | str (s : String)
  | arr (vs : List Val)
  | merged (ix : Nat) (chan : Nat) (err : Val) (val : Val)
  | error (msg : String)

/-- JS truthiness for the values of `Val`: null, false, 0 and the empty
string are falsy; arrays and objects are truthy. -/
def Val.truthy : Val → Bool
  | .null => false
  | .bool b => b
  | .int n => n != 0
  | .str s => s != ""
  | .arr _ => true
  | .merged _ _ _ _ => true
  | .error _ => true

/-- Defunctionalized continuations (JS callbacks of shape (err, value)).
`obs tag` is an external observer callback that records its invocation in
the system log (the role played by test callbacks).  The remaining
constructors are the closures created inside channel.js:
merge's writer/reader pair, map/filter/reduce's receive/loop pairs
(the closed-over mutable `result` of reduce is carried in the
continuation, faithful because only one take is outstanding per loop),
and takeN's receive with its accumulated group and final callback. -/
inductive Cont where
  | obs (tag : Nat)
  | mergeWriter (dst src ix : Nat)
  | mergeReader (dst src ix : Nat)
  | mapReceive (src dst : Nat) (cond : Option (Val → Bool)) (f : Val → Val)
  | mapLoop (src dst : Nat) (cond : Option (Val → Bool)) (f : Val → Val)
  | filterReceive (src dst : Nat) (cond : Option (Val → Bool)) (f : Val → Bool)
  | filterLoop (src dst : Nat) (cond : Option (Val → Bool)) (f : Val → Bool)
  | reduceReceive (src dst : Nat) (cond : Bool) (f : Val → Val → Val) (result : Val)
  | reduceLoop (src dst : Nat) (cond : Bool) (f : Val → Val → Val) (result : Val)
  | takeNReceive (src : Nat) (n : Nat) (acc : List Val) (k : Cont)

/-- A queued value with its completion continuation: `function CBV(callback, value)`. -/
structure CBV where
  callback : Option Cont
  value : Val

/-- `Channel.prototype.fill` replaces the take/put/fill methods of one
channel object; this method-replacement is modelled as a mode. -/
inductive ChanMode where
  | normal
  | filled (v : Val)

/-- `function Channel() { this._queue = new Array; this._pending = new Array; }` -/
structure Channel where
  mode : ChanMode
  queue : List CBV
  pending : List Cont

def Channel.new : Channel := ⟨.normal, [], []⟩

/-- A deferred continuation invocation sitting in the nextTick queue:
the continuation together with the (err, value) pair it will receive. -/
structure Invoke where
  k : Cont
  err : Val
  value : Val

/-- `function sendValue(value, callback) { callback && nextTick(function () { callback(null, value); }); }` -/
def sendValue (value : Val) (callback : Option Cont) : List Invoke :=
  match callback with
  | some k => [⟨k, .null, value⟩]
  | none => []

/-- `function sendError(err, callback) { callback && nextTick(function () { callback(err, null); }); }` -/
def sendError (err : Val) (callback : Option Cont) : List Invoke :=
  match callback with
  | some k => [⟨k, err, .null⟩]
  | none => []

/-- `Channel.prototype.take`: deliver the head queued value (signalling both
the original put continuation and the taker, in that order) or enqueue the
reader.  In filled mode the replaced method delivers the fill value. -/
def Channel.take (ch : Channel) (callback : Option Cont) : Channel × List Invoke :=
  match ch.mode with
  | .filled v => (ch, sendValue v callback)
  | .normal =>
    match ch.queue with
    | q :: rest =>
      ({ ch with queue := rest }, sendValue q.value q.callback ++ sendValue q.value callback)
    | [] =>
      match callback with
      | some k => ({ ch with pending := ch.pending ++ [k] }, [])
      | none => (ch, [])

/-- `Channel.prototype.put`: pair with the first waiting reader (signalling
the putter then the reader, in that order) or enqueue value+callback.  In
filled mode the replaced method ignores the value and signals the fill value. -/
def Channel.put (ch : Channel) (value : Val) (callback : Option Cont) : Channel × List Invoke :=
  match ch.mode with
  | .filled w => (ch, sendValue w callback)
  | .normal =>
    match ch.pending with
    | p :: rest =>
      ({ ch with pending := rest }, sendValue value callback ++ sendValue value (some p))
    | [] => ({ ch with queue := ch.queue ++ [⟨callback, value⟩] }, [])

/-- `Channel.prototype.backlog`: signed count `this._queue.length - this._pending.length`. -/
def Channel.backlog (ch : Channel) : Int :=
  (ch.queue.length : Int) - (ch.pending.length : Int)

/-- `Channel.prototype.fill`: switch the channel to constant-source mode.
After the first fill, `this.fill = noop`, so a second fill leaves the
channel unchanged.  Note the source does not touch `_queue` or `_pending`. -/
def Channel.fill (ch : Channel) (value : Val) : Channel :=
  match ch.mode with
  | .normal => { ch with mode := .filled value }
  | .filled _ => ch

/-- `droppingPut` (the put method installed by `droppingBuffer(N)`): if the
backlog is below N, forward to the parent channel's put with no callback
and signal the callback with the value; otherwise drop the value and signal
the callback with null.  It never enqueues the callback, hence never blocks. -/
def droppingPut (N : Nat) (ch : Channel) (value : Val) (callback : Option Cont) :
    Channel × List Invoke :=
  if ch.backlog < (N : Int) then
    let r := ch.put value none
    (r.1, r.2 ++ sendValue value callback)
  else
    (ch, sendValue .null callback)

/-- The `while (this.backlog() >= this._bufferLength) { this.take(); }` loop
of `expiringPut`.  Each iteration with a non-empty queue shifts one value,
so for N ≥ 1 the loop runs at most `queue.length` times, which is the fuel
used below.  For N = 0 with no waiting readers the source loop never
terminates: once the queue is drained, `take()` on an empty queue with no
callback is a no-op, `backlog() >= 0` stays true, and the program spins
forever without ever reaching the `sendValue` after the loop.  This
fuel-totalized function returns where the program hangs, so it is a
faithful model of the source only on N ≥ 1; accordingly every theorem
below about `expiringPut` carries a `1 ≤ N` hypothesis. -/
def evictLoop (N : Nat) : Nat → Channel → Channel × List Invoke
  | 0, ch => (ch, [])
  | fuel + 1, ch =>
    if (N : Int) ≤ ch.backlog then
      let r := ch.take none
      let r2 := evictLoop N fuel r.1
      (r2.1, r.2 ++ r2.2)
    else (ch, [])

/-- `expiringPut` (the put method installed by `expiringBuffer(N)`): evict
oldest values while the backlog is at least N, then put the new value with
no callback and signal the callback with the value.  Never blocks. -/
def expiringPut (N : Nat) (ch : Channel) (value : Val) (callback : Option Cont) :
    Channel × List Invoke :=
  let r := evictLoop N ch.queue.length ch
  let r2 := r.1.put value none
  (r2.1, r.2 ++ r2.2 ++ sendValue value callback)

/-- The whole system: the channels (addressed by index), the FIFO nextTick
queue of deferred continuation invocations, and the log of observer
callback invocations (tag, err, value). -/
structure Sys where
  chans : List Channel
  ticks : List Invoke
  log : List (Nat × Val × Val)

def Sys.getCh (sys : Sys) (c : Nat) : Channel := sys.chans.getD c Channel.new

def Sys.setCh (sys : Sys) (c : Nat) (ch : Channel) : Sys :=
  { sys with chans := sys.chans.set c ch }

def Sys.sched (sys : Sys) (ts : List Invoke) : Sys :=
  { sys with ticks := sys.ticks ++ ts }

/-- Invoke `take` on channel `c`: update the channel and append the
deferred invocations to the tick queue.  Nothing runs inside the call. -/
def sysTake (c : Nat) (callback : Option Cont) (sys : Sys) : Sys :=
  let r := (sys.getCh c).take callback
  (sys.setCh c r.1).sched r.2

/-- Invoke `put` on channel `c`. -/
def sysPut (c : Nat) (value : Val) (callback : Option Cont) (sys : Sys) : Sys :=
  let r := (sys.getCh c).put value callback
  (sys.setCh c r.1).sched r.2

def sysFill (c : Nat) (value : Val) (sys : Sys) : Sys :=
  sys.setCh c ((sys.getCh c).fill value)

def sysDroppingPut (N : Nat) (c : Nat) (value : Val) (callback : Option Cont) (sys : Sys) : Sys :=
  let r := droppingPut N (sys.getCh c) value callback
  (sys.setCh c r.1).sched r.2

def sysExpiringPut (N : Nat) (c : Nat) (value : Val) (callback : Option Cont) (sys : Sys) : Sys :=
  let r := expiringPut N (sys.getCh c) value callback
  (sys.setCh c r.1).sched r.2

/-- The `cond === true || cond(value)` test of map/filter: the literal
`true` argument is modelled by `none`. -/
def condHolds (cond : Option (Val → Bool)) (v : Val) : Bool :=
  match cond with
  | none => true
  | some c => c v

/-- The body of reduce's `loop`: `if (cond()) { self.take(receive); } else { ch2.put(result); }`.
The nullary `cond` is a pure function of no arguments, i.e. a constant. -/
def reduceLoopBody (src dst : Nat) (cond : Bool) (f : Val → Val → Val) (result : Val)
    (sys : Sys) : Sys :=
  if cond then sysTake src (some (.reduceReceive src dst cond f result)) sys
  else sysPut dst result none sys

/-- Interpreter for the defunctionalized callbacks, transcribing the closure
bodies in channel.js.  Observe that merge's writer unconditionally re-arms
(`reader` is passed as the put's completion continuation) with no check of
`err` or of a null value. -/
def runCont (k : Cont) (err value : Val) (sys : Sys) : Sys :=
  match k with
  | .obs tag => { sys with log := sys.log ++ [(tag, err, value)] }
  | .mergeWriter dst src ix =>
      sysPut dst (.merged ix src err value) (some (.mergeReader dst src ix)) sys
  | .mergeReader dst src ix =>
      sysTake src (some (.mergeWriter dst src ix)) sys
  | .mapReceive src dst cond f =>
      if condHolds cond value then
        sysPut dst (f value) (some (.mapLoop src dst cond f)) sys
      else
        sysPut dst .null none sys
  | .mapLoop src dst cond f =>
      sysTake src (some (.mapReceive src dst cond f)) sys
  | .filterReceive src dst cond f =>
      if condHolds cond value then
        if f value then sysPut dst value (some (.filterLoop src dst cond f)) sys
        else sysTake src (some (.filterReceive src dst cond f)) sys
      else
        sysPut dst .null none sys
  | .filterLoop src dst cond f =>
      sysTake src (some (.filterReceive src dst cond f)) sys
  | .reduceReceive src dst cond f result =>
      reduceLoopBody src dst cond f (f result value) sys
  | .reduceLoop src dst cond f result =>
      reduceLoopBody src dst cond f result sys
  | .takeNReceive src n acc k =>
      if err.truthy then sys.sched (sendError err (some k))
      else
        let acc2 := acc ++ [value]
        if acc2.length < n then
          sysTake src (some (.takeNReceive src n acc2 k)) sys
        else
          sys.sched (sendValue (.arr acc2) (some k))

/-- One turn of the host scheduler: run the first deferred invocation. -/
def step (sys : Sys) : Sys :=
  match sys.ticks with
  | [] => sys
  | t :: rest => runCont t.k t.err t.value { sys with ticks := rest }

/-- Run `n` turns of the scheduler. -/
def run : Nat → Sys → Sys
  | 0, sys => sys
  | n + 1, sys => run n (step sys)

/-- `Channel.merge(channels)`: for each source channel, `piper` immediately
calls `reader(null, null)`, i.e. takes from the source with `writer` as the
continuation. -/
def merge (dst : Nat) (channels : List Nat) (sys : Sys) : Sys :=
  channels.enum.foldl (fun s p => sysTake p.2 (some (.mergeWriter dst p.2 p.1)) s) sys

/-- `Channel.prototype.map(cond, f)`: the constructor calls `loop()`
synchronously, taking from the source with `receive`. -/
def chanMap (src dst : Nat) (cond : Option (Val → Bool)) (f : Val → Val) (sys : Sys) : Sys :=
  sysTake src (some (.mapReceive src dst cond f)) sys

/-- `Channel.prototype.filter(cond, f)`: constructor calls `loop()` synchronously. -/
def chanFilter (src dst : Nat) (cond : Option (Val → Bool)) (f : Val → Bool) (sys : Sys) : Sys :=
  sysTake src (some (.filterReceive src dst cond f)) sys

/-- `Channel.prototype.reduce(initial, cond, f)`: constructor calls `loop()`
synchronously with `result = initial`. -/
def chanReduce (src dst : Nat) (initial : Val) (cond : Bool) (f : Val → Val → Val)
    (sys : Sys) : Sys :=
  reduceLoopBody src dst cond f initial sys

/-- `Channel.prototype.takeN(N, callback)`: `self.take(receive)` with an
empty group. -/
def takeN (src : Nat) (n : Nat) (k : Cont) (sys : Sys) : Sys :=
  sysTake src (some (.takeNReceive src n [] k)) sys

/-- A system with `n` fresh channels, an empty tick queue and an empty log. -/
def initSys (n : Nat) : Sys := ⟨List.replicate n Channel.new, [], []⟩

/-! ## FIFO delivery (claim C2) -/

/-- Perform the puts of `vs` in order, with no completion callbacks
(as in `ch.put(seq[i])`). -/
def putAll (c : Nat) (vs : List Val) (sys : Sys) : Sys :=
  vs.foldl (fun s v => sysPut c v none s) sys

/-- Perform one take per tag, each with an observer continuation. -/
def takeAllObs (c : Nat) (tags : List Nat) (sys : Sys) : Sys :=
  tags.foldl (fun s t => sysTake c (some (.obs t)) s) sys

/-- The deferred invocation delivering `v` to observer `t`. -/
def obsInvoke (t : Nat) (v : Val) : Invoke := ⟨.obs t, .null, v⟩

lemma sysPut_queue (v : Val) (q : List CBV) (ts : List Invoke)
    (lg : List (Nat × Val × Val)) :
    sysPut 0 v none ⟨[⟨.normal, q, []⟩], ts, lg⟩
      = ⟨[⟨.normal, q ++ [⟨none, v⟩], []⟩], ts, lg⟩ := by
  simp [sysPut, Sys.getCh, Sys.setCh, Sys.sched, Channel.put, sendValue]

lemma putAll_queue (vs : List Val) : ∀ (q : List CBV) (ts : List Invoke)
    (lg : List (Nat × Val × Val)),
    putAll 0 vs ⟨[⟨.normal, q, []⟩], ts, lg⟩
      = ⟨[⟨.normal, q ++ vs.map (fun v => ⟨none, v⟩), []⟩], ts, lg⟩ := by
  induction vs with
  | nil => intro q ts lg; simp [putAll]
  | cons v vs ih =>
    intro q ts lg
    show putAll 0 vs (sysPut 0 v none _) = _
    rw [sysPut_queue, ih]
    simp

lemma takeAllObs_queue (tags : List Nat) : ∀ (vs : List Val),
    tags.length = vs.length → ∀ (ts : List Invoke) (lg : List (Nat × Val × Val)),
    takeAllObs 0 tags ⟨[⟨.normal, vs.map (fun v => ⟨none, v⟩), []⟩], ts, lg⟩
      = ⟨[⟨.normal, [], []⟩],
         ts ++ (tags.zip vs).map (fun p => obsInvoke p.1 p.2), lg⟩ := by
  induction tags with
  | nil =>
    intro vs h ts lg
    have : vs = [] := List.eq_nil_of_length_eq_zero h.symm
    subst this
    simp [takeAllObs]
  | cons t tags ih =>
    intro vs h ts lg
    cases vs with
    | nil => simp at h
    | cons v vs =>
      show takeAllObs 0 tags (sysTake 0 (some (.obs t)) _) = _
      have hst : sysTake 0 (some (.obs t))
          ⟨[⟨.normal, (v :: vs).map (fun v => ⟨none, v⟩), []⟩], ts, lg⟩
          = ⟨[⟨.normal, vs.map (fun v => ⟨none, v⟩), []⟩],
             ts ++ [obsInvoke t v], lg⟩ := by
        simp [sysTake, Sys.getCh, Sys.setCh, Sys.sched, Channel.take, sendValue, obsInvoke]
      rw [hst, ih vs (by simpa using h)]
      simp [List.zip_cons_cons]

lemma run_obsInvokes (ps : List (Nat × Val)) : ∀ (chs : List Channel)
    (lg : List (Nat × Val × Val)),
    run ps.length ⟨chs, ps.map (fun p => obsInvoke p.1 p.2), lg⟩
      = ⟨chs, [], lg ++ ps.map (fun p => (p.1, Val.null, p.2))⟩ := by
  induction ps with
  | nil => intro chs lg; simp [run]
  | cons p ps ih =>
    intro chs lg
    show run (ps.length + 1) _ = _
    rw [run]
    have hstep : step ⟨chs, (p :: ps).map (fun p => obsInvoke p.1 p.2), lg⟩
        = ⟨chs, ps.map (fun p => obsInvoke p.1 p.2), lg ++ [(p.1, Val.null, p.2)]⟩ := by
      simp [step, obsInvoke, runCont]
    rw [hstep, ih]
    simp

/-- C2: strict channel FIFO.  On a channel holding no values and with no
readers waiting (whatever observations `lg` the system has already
logged), perform the puts of `vs` in order, then one take per value: the
system runs to quiescence with the observers having received exactly the
values of `vs`, in the order they were put, each with a null error, and
the channel drained again. -/
theorem channel_fifo (vs : List Val) (lg : List (Nat × Val × Val)) :
    run vs.length
      (takeAllObs 0 (List.range vs.length)
        (putAll 0 vs ⟨[⟨.normal, [], []⟩], [], lg⟩))
      = ⟨[⟨.normal, [], []⟩], [],
          lg ++ ((List.range vs.length).zip vs).map (fun p => (p.1, Val.null, p.2))⟩ := by
  rw [putAll_queue]
  rw [List.nil_append, takeAllObs_queue _ _ (by simp)]
  have hlen : ((List.range vs.length).zip vs).length = vs.length := by simp
  have hr := run_obsInvokes ((List.range vs.length).zip vs)
    [⟨.normal, [], []⟩] lg
  rw [hlen] at hr
  rw [List.nil_append, hr]

/-- Sanity check on the concrete sequence used by the repository's tests. -/
example :
    (run 10 (takeAllObs 0 (List.range 10)
      (putAll 0 ([4, 5, 6, 3, 5, 23, 24, 1000, 73, 42].map Val.int) (initSys 1)))).log
      = [(0, .null, .int 4), (1, .null, .int 5), (2, .null, .int 6), (3, .null, .int 3),
         (4, .null, .int 5), (5, .null, .int 23), (6, .null, .int 24),
         (7, .null, .int 1000), (8, .null, .int 73), (9, .null, .int 42)] := rfl

/-! ## Queue disjointness and backlog (claim C3) -/

/-- Channel states reachable from a fresh channel (`new Channel()`) by an
arbitrary sequence of put and take operations. -/
inductive Reaches : Channel → Prop where
  | init : Reaches Channel.new
  | take (ch : Channel) (k : Option Cont) : Reaches ch → Reaches (ch.take k).1
  | put (ch : Channel) (v : Val) (k : Option Cont) : Reaches ch → Reaches (ch.put v k).1

lemma reaches_disjoint (ch : Channel) (h : Reaches ch) :
    ch.queue = [] ∨ ch.pending = [] := by
  induction h with
  | init => exact Or.inl rfl
  | take ch k _ ih =>
    unfold Channel.take
    cases hm : ch.mode with
    | filled v => simpa using ih
    | normal =>
      cases hq : ch.queue with
      | cons q rest =>
        right
        rcases ih with h1 | h2
        · rw [hq] at h1; cases h1
        · simpa using h2
      | nil =>
        cases k with
        | some k => left; simp [hq]
        | none => simpa using ih
  | put ch v k _ ih =>
    unfold Channel.put
    cases hm : ch.mode with
    | filled w => simpa using ih
    | normal =>
      cases hp : ch.pending with
      | cons p rest =>
        left
        rcases ih with h1 | h2
        · simpa using h1
        · rw [hp] at h2; cases h2
      | nil => right; rfl

/-- C3: on every channel state reachable by put/take sequences, the value
queue and the pending-reader queue are never both non-empty, the backlog is
the number of queued values minus the number of queued readers, and the
backlog's sign determines which queue is occupied (it is never accounted as
simultaneously positive and negative). -/
theorem backlog_invariant (ch : Channel) (h : Reaches ch) :
    (ch.queue = [] ∨ ch.pending = []) ∧
    ch.backlog = (ch.queue.length : Int) - (ch.pending.length : Int) ∧
    (0 < ch.backlog → ch.pending = []) ∧
    (ch.backlog < 0 → ch.queue = []) := by
  have hd := reaches_disjoint ch h
  refine ⟨hd, rfl, ?_, ?_⟩
  · intro hpos
    rcases hd with h1 | h2
    · exfalso
      rw [Channel.backlog, h1] at hpos
      simp at hpos
      omega
    · exact h2
  · intro hneg
    rcases hd with h1 | h2
    · exact h1
    · exfalso
      rw [Channel.backlog, h2] at hneg
      simp at hneg
      omega

/-- Witness: the invariant evaluated on a concrete reachable channel
(a put followed by a registered reader on the resulting state). -/
theorem backlog_invariant_witness :
    (((Channel.new.put (.int 1) none).1.take (some (.obs 0))).1.queue = [] ∨
      ((Channel.new.put (.int 1) none).1.take (some (.obs 0))).1.pending = []) ∧
    ((Channel.new.put (.int 1) none).1.take (some (.obs 0))).1.backlog =
      ((((Channel.new.put (.int 1) none).1.take (some (.obs 0))).1.queue.length : Int) -
        (((Channel.new.put (.int 1) none).1.take (some (.obs 0))).1.pending.length : Int)) ∧
    (0 < ((Channel.new.put (.int 1) none).1.take (some (.obs 0))).1.backlog →
      ((Channel.new.put (.int 1) none).1.take (some (.obs 0))).1.pending = []) ∧
    (((Channel.new.put (.int 1) none).1.take (some (.obs 0))).1.backlog < 0 →
      ((Channel.new.put (.int 1) none).1.take (some (.obs 0))).1.queue = []) :=
  backlog_invariant _ (Reaches.take _ _ (Reaches.put _ _ _ Reaches.init))

/-! ## Continuations never run inline (claim C9) -/

/-- C9: channel operations never invoke a continuation inline.  The log of
observer-callback invocations is untouched by any put/take (including on
filled channels and through the dropping/expiring buffer put methods) — a
continuation can only fire when the scheduler later runs a deferred tick.
For the concrete put-then-take pairing (the repository's
"should not call the callback immediately" test): immediately after both
calls nothing has been delivered and both continuations sit in the tick
queue; two scheduler turns later both have fired, putter first. -/
theorem no_inline_continuations :
    (∀ (sys : Sys) (c n : Nat) (v : Val) (k : Cont),
      (sysPut c v (some k) sys).log = sys.log ∧
      (sysTake c (some k) sys).log = sys.log ∧
      (sysFill c v sys).log = sys.log ∧
      (sysDroppingPut n c v (some k) sys).log = sys.log ∧
      (sysExpiringPut n c v (some k) sys).log = sys.log) ∧
    (∀ (v : Val) (a b : Nat),
      (sysTake 0 (some (.obs b)) (sysPut 0 v (some (.obs a)) (initSys 1))).log = [] ∧
      (sysTake 0 (some (.obs b)) (sysPut 0 v (some (.obs a)) (initSys 1))).ticks
        = [⟨.obs a, .null, v⟩, ⟨.obs b, .null, v⟩] ∧
      (run 2 (sysTake 0 (some (.obs b)) (sysPut 0 v (some (.obs a)) (initSys 1)))).log
        = [(a, Val.null, v), (b, Val.null, v)]) := by
  constructor
  · intro sys c n v k
    exact ⟨rfl, rfl, rfl, rfl, rfl⟩
  · intro v a b
    exact ⟨rfl, rfl, rfl⟩

/-! ## fill as constant source (claims C7, C10) -/

/-- C7 counterexample system: a reader is registered while the channel is
empty (so it is pushed on `_pending`), then the channel is filled with 42,
then a put with its own continuation is performed and the scheduler runs to
quiescence. -/
def fillOrphanSys : Sys :=
  run 5 (sysPut 0 (.int 7) (some (.obs 1))
    (sysFill 0 (.int 42) (sysTake 0 (some (.obs 0)) (initSys 1))))

/-- C7 counterexample: after `fill(42)`, the take that was already pending
is never signalled: the system is quiescent (empty tick queue), the put
continuation received the fill value, but observer 0 — the pending taker —
received nothing and still sits in the orphaned `_pending` queue.
`fill` replaces the take/put methods without draining `_pending`. -/
theorem fill_pending_taker_starves :
    fillOrphanSys.log = [(1, Val.null, Val.int 42)] ∧
    fillOrphanSys.ticks = [] ∧
    (fillOrphanSys.getCh 0).pending.length = 1 ∧
    fillOrphanSys.log.filter (fun e => e.1 == 0) = [] :=
  ⟨rfl, rfl, rfl, rfl⟩

/-- C7 (amended): after `fill(v)` on a channel still in normal mode, every
subsequently performed take immediately delivers `v`, and every subsequent
put is a no-op on the queues that still signals its continuation with the
fixed value `v`; but the queues themselves (in particular the continuations
already pending at fill time) are left untouched and never signalled. -/
theorem fill_constant_source (ch : Channel) (v w : Val) (k : Cont)
    (h : ch.mode = .normal) :
    (ch.fill v).take (some k) = (ch.fill v, [⟨k, .null, v⟩]) ∧
    (ch.fill v).put w (some k) = (ch.fill v, [⟨k, .null, v⟩]) ∧
    (ch.fill v).pending = ch.pending ∧
    (ch.fill v).queue = ch.queue := by
  have h1 : ch.fill v = { ch with mode := .filled v } := by
    simp [Channel.fill, h]
  refine ⟨?_, ?_, ?_, ?_⟩ <;> simp [h1, Channel.take, Channel.put, sendValue]

/-- Witness for C7 (amended) on a concrete channel with a pending reader. -/
theorem fill_constant_source_witness :
    (Channel.mk .normal [] [.obs 0]).mode = .normal ∧
    (((Channel.mk .normal [] [.obs 0]).fill (.int 42)).take (some (.obs 1))
        = ((Channel.mk .normal [] [.obs 0]).fill (.int 42), [⟨.obs 1, .null, .int 42⟩]) ∧
      ((Channel.mk .normal [] [.obs 0]).fill (.int 42)).put (.int 7) (some (.obs 1))
        = ((Channel.mk .normal [] [.obs 0]).fill (.int 42), [⟨.obs 1, .null, .int 42⟩]) ∧
      ((Channel.mk .normal [] [.obs 0]).fill (.int 42)).pending
        = (Channel.mk .normal [] [.obs 0]).pending ∧
      ((Channel.mk .normal [] [.obs 0]).fill (.int 42)).queue
        = (Channel.mk .normal [] [.obs 0]).queue) :=
  ⟨rfl, fill_constant_source _ _ (.int 7) (.obs 1) rfl⟩

/-- C10: fill is idempotent-once.  After the first `fill(v)` on a channel,
`this.fill = noop`, so a later `fill(w)` — for any `w` — leaves the channel
unchanged, and the channel permanently delivers the first value `v` to every
take and signals `v` to every put continuation. -/
theorem fill_first_bind_wins (ch : Channel) (v w u : Val) (k : Cont)
    (h : ch.mode = .normal) :
    (ch.fill v).fill w = ch.fill v ∧
    ((ch.fill v).fill w).take (some k) = (ch.fill v, [⟨k, .null, v⟩]) ∧
    ((ch.fill v).fill w).put u (some k) = (ch.fill v, [⟨k, .null, v⟩]) := by
  have h1 : ch.fill v = { ch with mode := .filled v } := by
    simp [Channel.fill, h]
  rw [h1]
  refine ⟨?_, ?_, ?_⟩ <;> simp [Channel.fill, Channel.take, Channel.put, sendValue]

/-- Witness for C10 at a fresh channel with two conflicting fills. -/
theorem fill_first_bind_wins_witness :
    Channel.new.mode = .normal ∧
    ((Channel.new.fill (.int 1)).fill (.int 2) = Channel.new.fill (.int 1) ∧
      ((Channel.new.fill (.int 1)).fill (.int 2)).take (some (.obs 0))
        = (Channel.new.fill (.int 1), [⟨.obs 0, .null, .int 1⟩]) ∧
      ((Channel.new.fill (.int 1)).fill (.int 2)).put (.int 3) (some (.obs 0))
        = (Channel.new.fill (.int 1), [⟨.obs 0, .null, .int 1⟩])) :=
  ⟨rfl, fill_first_bind_wins Channel.new (.int 1) (.int 2) (.int 3) (.obs 0) rfl⟩

/-! ## Dropping and expiring buffers (claim C6) -/

lemma evictLoop_queue (N : Nat) (hN : 1 ≤ N) :
    ∀ (fuel : Nat) (q : List CBV), q.length ≤ fuel →
    (evictLoop N fuel ⟨.normal, q, []⟩).1 =
      ⟨.normal, q.drop (q.length - (N - 1)), []⟩ := by
  intro fuel
  induction fuel with
  | zero =>
    intro q hq
    have : q = [] := List.eq_nil_of_length_eq_zero (Nat.le_zero.mp hq)
    subst this
    simp [evictLoop]
  | succ fuel ih =>
    intro q hq
    by_cases hc : N ≤ q.length
    · cases q with
      | nil => simp at hc; omega
      | cons c q =>
        have hcond : (N : Int) ≤ (Channel.mk .normal (c :: q) []).backlog := by
          simp [Channel.backlog]
          exact_mod_cast hc
        have htake : (Channel.mk .normal (c :: q) []).take none
            = (⟨.normal, q, []⟩, sendValue c.value c.callback) := by
          simp [Channel.take, sendValue]
        rw [evictLoop, if_pos hcond, htake]
        have hrec := ih q (by simpa using Nat.le_of_succ_le_succ hq)
        simp only [hrec]
        have hc2 : N ≤ q.length + 1 := by simpa using hc
        have hlen : (c :: q).length - (N - 1) = (q.length - (N - 1)) + 1 := by
          simp only [List.length_cons]
          omega
        rw [hlen, List.drop_succ_cons]
    · have hcond : ¬ ((N : Int) ≤ (Channel.mk .normal q []).backlog) := by
        simp [Channel.backlog]
        omega
      rw [evictLoop, if_neg hcond]
      have : q.length - (N - 1) = 0 := by omega
      simp [this]

/-- Six consecutive puts through `droppingBuffer(4)` on a fresh channel. -/
def dropSys1 : Sys :=
  ((List.range 6).map (fun i => Val.int (i + 1))).foldl
    (fun s v => sysDroppingPut 4 0 v none s) (initSys 1)

/-- ... then `takeN(4)`, run to quiescence. -/
def dropSys2 : Sys := run 12 (takeN 0 4 (.obs 0) dropSys1)

/-- ... then puts of 7 and 8 through the dropping buffer and `takeN(2)`. -/
def dropSys3 : Sys :=
  run 8 (takeN 0 2 (.obs 1)
    (sysDroppingPut 4 0 (.int 8) none (sysDroppingPut 4 0 (.int 7) none dropSys2)))

/-- Six consecutive puts through `expiringBuffer(4)` on a fresh channel,
then `takeN(4)`, run to quiescence. -/
def expSys : Sys :=
  run 12 (takeN 0 4 (.obs 0)
    (((List.range 6).map (fun i => Val.int (i + 1))).foldl
      (fun s v => sysExpiringPut 4 0 v none s) (initSys 1)))

/-- C6: the buffering policies.
1.  a `droppingBuffer(4)` channel: put 1..6 then take 4 yields [1,2,3,4]
    (puts 5 and 6 were silently discarded), and after subsequent puts of
    7 and 8 a take of 2 yields [7,8];
2.  an `expiringBuffer(4)` channel: put 1..6 then take 4 yields [3,4,5,6]
    (the oldest values 1 and 2 were evicted);
3.  a dropping put made while the backlog is at least N leaves the channel
    untouched and signals its continuation with null;
4.  a dropping put never blocks: its continuation is always scheduled in
    the same turn (with the value if accepted, null if dropped);
5.  for N ≥ 1 an expiring put never blocks: its continuation is always
    scheduled in the same turn with the value (for N = 0 with no waiting
    readers the source's eviction loop spins forever, see `evictLoop`,
    so the model asserts nothing there);
6.  for N ≥ 1, an expiring put on a channel with no waiting readers
    retains exactly the newest values: the queue becomes the last N−1 old
    values followed by the new value. -/
theorem buffering_policies :
    (dropSys3.log = [(0, Val.null, Val.arr [.int 1, .int 2, .int 3, .int 4]),
                     (1, Val.null, Val.arr [.int 7, .int 8])]) ∧
    (expSys.log = [(0, Val.null, Val.arr [.int 3, .int 4, .int 5, .int 6])]) ∧
    (∀ (N : Nat) (ch : Channel) (v : Val) (k : Option Cont),
      (N : Int) ≤ ch.backlog →
      droppingPut N ch v k = (ch, sendValue .null k)) ∧
    (∀ (N : Nat) (ch : Channel) (v : Val) (k : Cont),
      ∃ ts, (droppingPut N ch v (some k)).2
        = ts ++ [⟨k, .null, if ch.backlog < (N : Int) then v else .null⟩]) ∧
    (∀ (N : Nat) (ch : Channel) (v : Val) (k : Cont),
      1 ≤ N →
      ∃ ts, (expiringPut N ch v (some k)).2 = ts ++ [⟨k, .null, v⟩]) ∧
    (∀ (N : Nat) (ch : Channel) (v : Val) (k : Option Cont),
      1 ≤ N → ch.mode = .normal → ch.pending = [] →
      (expiringPut N ch v k).1
        = ⟨.normal, ch.queue.drop (ch.queue.length - (N - 1)) ++ [⟨none, v⟩], []⟩) := by
  refine ⟨rfl, rfl, ?_, ?_, ?_, ?_⟩
  · intro N ch v k hb
    rw [droppingPut, if_neg (by omega)]
  · intro N ch v k
    by_cases hb : ch.backlog < (N : Int)
    · exact ⟨(ch.put v none).2, by rw [droppingPut, if_pos hb, if_pos hb]; rfl⟩
    · exact ⟨[], by rw [droppingPut, if_neg hb, if_neg hb]; rfl⟩
  · intro N ch v k _
    exact ⟨(evictLoop N ch.queue.length ch).2 ++
      ((evictLoop N ch.queue.length ch).1.put v none).2, by
        rw [expiringPut]; simp [sendValue]⟩
  · intro N ch v k hN hm hp
    obtain ⟨mo, q, pe⟩ := ch
    simp only at hm hp
    subst hm; subst hp
    rw [expiringPut]
    simp only [evictLoop_queue N hN q.length q (le_refl _)]
    simp [Channel.put]

/-- Witness for the universally quantified parts of the buffering theorem,
evaluated on a concrete channel holding four values. -/
theorem buffering_policies_witness :
    ((4 : Int) ≤ (Channel.mk .normal
        [⟨none, .int 1⟩, ⟨none, .int 2⟩, ⟨none, .int 3⟩, ⟨none, .int 4⟩] []).backlog) ∧
    droppingPut 4 (Channel.mk .normal
        [⟨none, .int 1⟩, ⟨none, .int 2⟩, ⟨none, .int 3⟩, ⟨none, .int 4⟩] [])
        (.int 9) (some (.obs 0))
      = (Channel.mk .normal
          [⟨none, .int 1⟩, ⟨none, .int 2⟩, ⟨none, .int 3⟩, ⟨none, .int 4⟩] [],
         sendValue .null (some (.obs 0))) ∧
    (∃ ts, (expiringPut 4 (Channel.mk .normal
        [⟨none, .int 1⟩, ⟨none, .int 2⟩, ⟨none, .int 3⟩, ⟨none, .int 4⟩] [])
        (.int 9) (some (.obs 0))).2 = ts ++ [⟨.obs 0, .null, .int 9⟩]) ∧
    (expiringPut 4 (Channel.mk .normal
        [⟨none, .int 1⟩, ⟨none, .int 2⟩, ⟨none, .int 3⟩, ⟨none, .int 4⟩] [])
        (.int 9) (some (.obs 0))).1
      = ⟨.normal, [⟨none, .int 2⟩, ⟨none, .int 3⟩, ⟨none, .int 4⟩, ⟨none, .int 9⟩], []⟩ := by
  refine ⟨by decide, ?_, ?_, ?_⟩
  · exact buffering_policies.2.2.1 4 _ (.int 9) (some (.obs 0)) (by decide)
  · exact buffering_policies.2.2.2.2.1 4 (Channel.mk .normal
      [⟨none, .int 1⟩, ⟨none, .int 2⟩, ⟨none, .int 3⟩, ⟨none, .int 4⟩] [])
      (.int 9) (.obs 0) (by decide)
  · have h := buffering_policies.2.2.2.2.2 4 (Channel.mk .normal
      [⟨none, .int 1⟩, ⟨none, .int 2⟩, ⟨none, .int 3⟩, ⟨none, .int 4⟩] [])
      (.int 9) (some (.obs 0)) (by decide) rfl rfl
    simpa using h

/-! ## merge (claim C4) -/

/-- The failing input for the merge stop condition: a single source channel
that first yields the terminal value null.  `merge` is set up, the source
puts null, the merged channel is read once, and the scheduler runs to
quiescence. -/
def mergeNullSys : Sys :=
  run 3 (sysTake 1 (some (.obs 0)) (run 2 (sysPut 0 .null none (merge 1 [0] (initSys 2)))))

/-- ... then the same source yields a further value 7 and the merged
channel is read again. -/
def mergeNullSys2 : Sys :=
  run 4 (sysTake 1 (some (.obs 1)) (sysPut 0 (.int 7) none mergeNullSys))

/-- C4: the merge piper does NOT stop at a terminal/null value, contrary to
the documentation above `Channel.merge` ("the channel will cease to send
its output to the merged channel").  After the source yields null, the
merged channel delivers the wrapped null (tagged with the source index and
identity), the piper immediately re-arms a take on the source (its reader
continuation sits in the source's pending queue), and a later value 7 from
the same source is still relayed. -/
theorem merge_keeps_relaying_after_null :
    mergeNullSys.log = [(0, Val.null, Val.merged 0 0 .null .null)] ∧
    (mergeNullSys.getCh 0).pending.length = 1 ∧
    mergeNullSys.ticks = [] ∧
    mergeNullSys2.log = [(0, Val.null, Val.merged 0 0 .null .null),
                         (1, Val.null, Val.merged 0 0 .null (.int 7))] ∧
    mergeNullSys2.ticks = [] :=
  ⟨rfl, rfl, rfl, rfl, rfl⟩

/-! ## map, filter, reduce pull loops (claim C5) -/

/-- `reduce(5, cond, f)` with a cond that fails immediately: the derived
channel is read once and the scheduler runs to quiescence. -/
def reduceFalseSys : Sys :=
  run 3 (sysTake 1 (some (.obs 0)) (chanReduce 0 1 (.int 5) false (fun a _ => a) (initSys 2)))

/-- C5 counterexample: when reduce's cond fails, the derived channel does
NOT receive a null terminator — it receives the accumulated fold result
(`ch2.put(result)`), here the initial value 5. -/
theorem reduce_delivers_result_not_null :
    reduceFalseSys.log = [(0, Val.null, Val.int 5)] ∧
    reduceFalseSys.log ≠ [(0, Val.null, Val.null)] := by
  refine ⟨rfl, ?_⟩
  intro h
  rw [show reduceFalseSys.log = [(0, Val.null, Val.int 5)] from rfl] at h
  simp at h

/-- C5 (amended): map and filter pull from the source while cond holds,
applying the transform / filter predicate, and deliver a null terminator
and stop pulling when cond fails; reduce pulls and folds while cond holds,
and when cond fails delivers the accumulated fold result (not a null
terminator) to the derived channel and stops pulling.

Each conjunct is an end-to-end run: channel 0 is the source, channel 1 the
derived channel.  "Stops pulling" is witnessed by quiescence: the tick
queue is empty and no continuation of the combinator is left pending on
the source. -/
theorem map_filter_reduce_pull_loops
    (v1 v2 w1 w2 w3 u1 init : Val) (c : Val → Bool) (cf : Val → Bool)
    (f : Val → Val) (p : Val → Bool) (g : Val → Val → Val)
    (hc1 : c v1 = true) (hc2 : c v2 = false)
    (hf1 : cf w1 = true) (hp1 : p w1 = true)
    (hf2 : cf w2 = true) (hp2 : p w2 = false)
    (hf3 : cf w3 = false) :
    ((run 6 (sysTake 1 (some (.obs 1)) (sysTake 1 (some (.obs 0))
        (sysPut 0 v2 none (sysPut 0 v1 none (chanMap 0 1 (some c) f (initSys 2))))))).log
        = [(0, .null, f v1), (1, .null, .null)] ∧
      (run 6 (sysTake 1 (some (.obs 1)) (sysTake 1 (some (.obs 0))
        (sysPut 0 v2 none (sysPut 0 v1 none (chanMap 0 1 (some c) f (initSys 2))))))).ticks
        = [] ∧
      ((run 6 (sysTake 1 (some (.obs 1)) (sysTake 1 (some (.obs 0))
        (sysPut 0 v2 none (sysPut 0 v1 none
          (chanMap 0 1 (some c) f (initSys 2))))))).getCh 0).pending = [] ∧
      ((run 6 (sysTake 1 (some (.obs 1)) (sysTake 1 (some (.obs 0))
        (sysPut 0 v2 none (sysPut 0 v1 none
          (chanMap 0 1 (some c) f (initSys 2))))))).getCh 0).queue = []) ∧
    ((run 7 (sysTake 1 (some (.obs 1)) (sysTake 1 (some (.obs 0))
        (sysPut 0 w3 none (sysPut 0 w2 none (sysPut 0 w1 none
          (chanFilter 0 1 (some cf) p (initSys 2)))))))).log
        = [(0, .null, w1), (1, .null, .null)] ∧
      (run 7 (sysTake 1 (some (.obs 1)) (sysTake 1 (some (.obs 0))
        (sysPut 0 w3 none (sysPut 0 w2 none (sysPut 0 w1 none
          (chanFilter 0 1 (some cf) p (initSys 2)))))))).ticks = [] ∧
      ((run 7 (sysTake 1 (some (.obs 1)) (sysTake 1 (some (.obs 0))
        (sysPut 0 w3 none (sysPut 0 w2 none (sysPut 0 w1 none
          (chanFilter 0 1 (some cf) p (initSys 2)))))))).getCh 0).pending = []) ∧
    ((run 3 (sysTake 1 (some (.obs 0)) (chanReduce 0 1 init false g (initSys 2)))).log
        = [(0, .null, init)] ∧
      (run 3 (sysTake 1 (some (.obs 0)) (chanReduce 0 1 init false g (initSys 2)))).ticks
        = [] ∧
      ((run 3 (sysTake 1 (some (.obs 0))
          (chanReduce 0 1 init false g (initSys 2)))).getCh 0).pending = []) ∧
    (((run 1 (sysPut 0 u1 none (chanReduce 0 1 init true g (initSys 2)))).getCh 0).pending
        = [.reduceReceive 0 1 true g (g init u1)] ∧
      (run 1 (sysPut 0 u1 none (chanReduce 0 1 init true g (initSys 2)))).ticks = []) := by
  have hM : run 6 (sysTake 1 (some (.obs 1)) (sysTake 1 (some (.obs 0))
      (sysPut 0 v2 none (sysPut 0 v1 none (chanMap 0 1 (some c) f (initSys 2))))))
      = ⟨[⟨.normal, [], []⟩, ⟨.normal, [], []⟩], [],
          [(0, .null, f v1), (1, .null, .null)]⟩ := by
    simp [run, step, runCont, sysTake, sysPut, Sys.getCh, Sys.setCh, Sys.sched,
      Channel.take, Channel.put, sendValue, condHolds, chanMap, initSys, Channel.new,
      hc1, hc2]
  have hF : run 7 (sysTake 1 (some (.obs 1)) (sysTake 1 (some (.obs 0))
      (sysPut 0 w3 none (sysPut 0 w2 none (sysPut 0 w1 none
        (chanFilter 0 1 (some cf) p (initSys 2)))))))
      = ⟨[⟨.normal, [], []⟩, ⟨.normal, [], []⟩], [],
          [(0, .null, w1), (1, .null, .null)]⟩ := by
    simp [run, step, runCont, sysTake, sysPut, Sys.getCh, Sys.setCh, Sys.sched,
      Channel.take, Channel.put, sendValue, condHolds, chanFilter, initSys, Channel.new,
      hf1, hp1, hf2, hp2, hf3]
  have hR : run 3 (sysTake 1 (some (.obs 0)) (chanReduce 0 1 init false g (initSys 2)))
      = ⟨[⟨.normal, [], []⟩, ⟨.normal, [], []⟩], [], [(0, .null, init)]⟩ := by
    simp [run, step, runCont, sysTake, sysPut, Sys.getCh, Sys.setCh, Sys.sched,
      Channel.take, Channel.put, sendValue, chanReduce, reduceLoopBody, initSys,
      Channel.new]
  have hP : run 1 (sysPut 0 u1 none (chanReduce 0 1 init true g (initSys 2)))
      = ⟨[⟨.normal, [], [.reduceReceive 0 1 true g (g init u1)]⟩, ⟨.normal, [], []⟩],
          [], []⟩ := by
    simp [run, step, runCont, sysTake, sysPut, Sys.getCh, Sys.setCh, Sys.sched,
      Channel.take, Channel.put, sendValue, chanReduce, reduceLoopBody, initSys,
      Channel.new]
  rw [hM, hF, hR, hP]
  simp [Sys.getCh]

/-- Witness for the amended C5 theorem at concrete conditions, transforms
and values (squaring map over positive ints, odd filter, sum fold). -/
theorem map_filter_reduce_pull_loops_witness :
    ((fun v => match v with | Val.int n => decide (0 < n) | _ => false) (Val.int 3) = true ∧
     (fun v => match v with | Val.int n => decide (0 < n) | _ => false) (Val.int 0) = false) ∧
    ((run 3 (sysTake 1 (some (.obs 0)) (chanReduce 0 1 (Val.int 0) false
        (fun a b => match a, b with | Val.int x, Val.int y => Val.int (x + y) | _, _ => Val.null)
        (initSys 2)))).log = [(0, .null, Val.int 0)]) :=
  ⟨⟨rfl, rfl⟩,
    (map_filter_reduce_pull_loops (Val.int 3) (Val.int 0) (.int 1) (.int 2) (.int 0)
      (.int 7) (.int 0)
      (fun v => match v with | Val.int n => decide (0 < n) | _ => false)
      (fun v => match v with | Val.int n => decide (0 < n) | _ => false)
      (fun v => match v with | Val.int n => Val.int (n * n) | _ => Val.null)
      (fun v => match v with | Val.int n => decide (n % 2 = 1) | _ => false)
      (fun a b => match a, b with | Val.int x, Val.int y => Val.int (x + y) | _, _ => Val.null)
      rfl rfl rfl rfl rfl rfl rfl).2.2.1.1⟩

/-! ## Execution engine (claims C1, C8)

The StateMachine runtime (state_machine.js) is not part of the sources;
only its callers — the `task` macro compiler, which emits the step
protocol — and its tests are.  The runtime semantics below are therefore
modelled from the specification (section 4.1: callback as the single
propagation/termination point, handler frames with class filters,
deferred cleanup actions, phi at merge points, retry), while the step
dispatch structure (the `state_machine_fn` guard and try/catch of
`post_declare`) and the concrete step programs are transcribed from the
macro expansion rules present in the sources. -/

/-- A frame on the engine's LIFO handler/cleanup stack: a catch handler
{resume step, first step of the protected region}, a deferred cleanup
action (identified by a tag; its arguments were captured at registration),
or a phi merge marker recording the merge target step pushed by `pushPhi`. -/
inductive Frame where
  | handler (resumeId : Nat) (protectId : Nat)
  | cleanupAction (tag : Nat)
  | phiF (mergeId : Nat)

/-- Modelled from the spec: the per-instance state of the missing
StateMachine runtime.  `id` is the current step id, `err` the pending
error (`state.err`), `isUnwinding` the unwinding flag, `frames` the LIFO
handler/cleanup stack, `term` the record of terminal-continuation
invocations (err, results), `done` whether the terminal continuation has
fired, `visited` the trace of dispatched step ids and `acts` the cleanup
actions executed, in execution order. -/
structure SM where
  id : Nat
  err : Val
  isUnwinding : Bool
  frames : List Frame
  term : List (Val × List Val)
  done : Bool
  visited : List Nat
  acts : List Nat

/-- The initial state of one workflow instance: at step 1, no error, not
unwinding, empty stacks, terminal continuation not yet invoked. -/
def SM.start : SM := ⟨1, .null, false, [], [], false, [], []⟩

/-- Walk the frame stack from the top, collecting cleanup-action tags, up
to the nearest handler; return the collected actions and, if a handler was
found, its resume step, protected-region step and the stack from that
handler on (the handler stays active, so that `retry` can find it and a
renewed error inside the handler region is caught again). -/
def unwindTo : List Frame → List Nat × Option (Nat × Nat × List Frame)
  | [] => ([], none)
  | .handler r p :: rest => ([], some (r, p, .handler r p :: rest))
  | .cleanupAction t :: rest =>
      let x := unwindTo rest
      (t :: x.1, x.2)
  | .phiF _ :: rest => unwindTo rest

/-- The cleanup-action tags of a frame stack, top (most recently
registered) first. -/
def cleanupTags (fr : List Frame) : List Nat :=
  fr.filterMap (fun f => match f with | .cleanupAction t => some t | _ => none)

/-- Modelled from the spec: `callback(error)` with a set error — run every
cleanup frame registered after the nearest still-active handler (reverse
order) and transfer control to that handler's resume step with the error
bound and the unwinding flag set; if no handler remains, invoke the
terminal continuation with the error, exactly once (`done` guards
re-entry). -/
def callbackErr (e : Val) (sm : SM) : SM :=
  if sm.done then sm
  else
    match unwindTo sm.frames with
    | (ts, some x) =>
        { sm with
          id := x.1
          err := e
          isUnwinding := true
          frames := x.2.2
          acts := sm.acts ++ ts }
    | (ts, none) =>
        { sm with
          frames := []
          acts := sm.acts ++ ts
          term := sm.term ++ [(e, [])]
          done := true }

/-- Modelled from the spec: `callback(null, values…)` — run the cleanup
frames of the scopes being exited (a return exits every scope, so all
registered cleanup actions run, most recent first), then invoke the
terminal continuation with a null error and the given values, exactly
once. -/
def callbackOk (vals : List Val) (sm : SM) : SM :=
  if sm.done then sm
  else
    { sm with
      frames := []
      err := .null
      isUnwinding := false
      acts := sm.acts ++ cleanupTags sm.frames
      term := sm.term ++ [(.null, vals)]
      done := true }

/-- Modelled from the spec: `phi()` at a structural merge point.  In
normal flow it pops the frames of the block being merged: up to and
including the nearest phi marker, jumping to its merge target (this is how
a taken branch skips the untaken one), or — for the merge closing a
handler/cleanup registration — just the top frame, falling through to the
next step.  During unwinding (a dispatched handler whose class filter
rejected the error, or a handler body that fell through without
resolving) it discards the dispatched handler and continues propagating
the current error outward. -/
def phiOp (sm : SM) : SM :=
  if sm.isUnwinding then callbackErr sm.err { sm with frames := sm.frames.drop 1 }
  else
    match sm.frames with
    | .phiF m :: rest => { sm with frames := rest, id := m }
    | _ :: rest => { sm with frames := rest, id := sm.id + 1 }
    | [] => { sm with id := sm.id + 1 }

/-- Modelled from the spec: `retry()` — clear the active error and restart
execution at the first step of the region the nearest active handler
protects; the handler remains active, so the region is guarded again. -/
def retryOp (sm : SM) : SM :=
  match unwindTo sm.frames with
  | (_, some x) =>
      { sm with err := .null, isUnwinding := false, id := x.2.1, frames := x.2.2 }
  | (_, none) => sm

/-- What the generated code of one `case` of the compiled switch does, as
emitted by the `step_state` macros: fall through to the next step, jump,
resolve via `callback(null, vals…)`, a `throw e;` statement (which calls
back only if the thrown value is truthy), a synchronous JS exception
raised while executing the step body, `pushErrorStep(resume, after)`,
`pushCleanupAction(tag)`, `pushPhi(merge)`, `phi()` or `retry()`. -/
inductive StepAct where
  | next
  | goTo (n : Nat)
  | ret (vals : List Val)
  | throwE (e : Val)
  | raise (e : Val)
  | pushH (resumeId afterId : Nat)
  | pushCA (tag : Nat)
  | pushPhi (mergeId : Nat)
  | phi
  | retry

/-- A compiled workflow: the body of the generated `state_machine_fn`
switch, mapping the current step id (and machine state, standing for the
state variables the generated code may read) to the step's effect. -/
def Program := Nat → SM → StepAct

/-- Interpret the effect of the current step on the machine state.
A synchronous exception in the step body (`raise`) is caught by the
generated try/catch of `state_machine_fn` and funneled into
`callback(e)`: it never escapes to the caller. -/
def smDispatch (prog : Program) (sm : SM) : SM :=
  match prog sm.id sm with
  | .next => { sm with id := sm.id + 1 }
  | .goTo n => { sm with id := n }
  | .ret vals => callbackOk vals sm
  | .throwE e => if e.truthy then callbackErr e sm else { sm with id := sm.id + 1 }
  | .raise e => if e.truthy then callbackErr e sm else callbackOk [] sm
  | .pushH r a => { sm with frames := .handler r a :: sm.frames, id := a }
  | .pushCA t => { sm with frames := .cleanupAction t :: sm.frames, id := sm.id + 1 }
  | .pushPhi m => { sm with frames := .phiF m :: sm.frames, id := sm.id + 1 }
  | .phi => phiOp sm
  | .retry => retryOp sm

/-- One re-entry into `state_machine_fn` (transcribed from the
`post_declare` wrapper in the sources, with the runtime operations
modelled from the spec): if the terminal continuation has fired the
instance is dead; otherwise record the dispatched step and interpret
its effect. -/
def smStep (prog : Program) (sm : SM) : SM :=
  if sm.done then sm
  else smDispatch prog { sm with visited := sm.visited ++ [sm.id] }

/-- Run `n` re-entries of the state machine. -/
def smRun (prog : Program) : Nat → SM → SM
  | 0, sm => sm
  | n + 1, sm => smRun prog n (smStep prog sm)

/-- The invariant tying the terminal continuation to the `done` flag:
before completion nothing was delivered; at completion exactly one
(err, values) pair was delivered, which is either a success with a null
error or a failure carrying the truthy error; and while unwinding the
pending error is truthy. -/
def SMInv (sm : SM) : Prop :=
  (sm.done = false → sm.term = []) ∧
  (sm.done = true → sm.term.length = 1) ∧
  (∀ e vals, (e, vals) ∈ sm.term → e = Val.null ∨ (e.truthy = true ∧ vals = [])) ∧
  (sm.isUnwinding = true → sm.err.truthy = true)

lemma smInv_start : SMInv SM.start := by
  refine ⟨fun _ => rfl, ?_, ?_, ?_⟩
  · intro h; exact Bool.noConfusion h
  · intro e vals h; exact absurd h (List.not_mem_nil _)
  · intro h; exact Bool.noConfusion h

lemma smInv_callbackErr (e : Val) (sm : SM) (h : SMInv sm) (he : e.truthy = true) :
    SMInv (callbackErr e sm) := by
  obtain ⟨h1, h2, h3, h4⟩ := h
  unfold callbackErr
  split
  · exact ⟨h1, h2, h3, h4⟩
  next hd =>
    have hd' : sm.done = false := by revert hd; cases sm.done <;> simp
    have ht : sm.term = [] := h1 hd'
    split
    next ts x heq =>
      exact ⟨fun _ => ht, fun hh => absurd hh (by rw [hd']; exact Bool.noConfusion),
        h3, fun _ => he⟩
    next ts heq =>
      refine ⟨fun hh => Bool.noConfusion hh, fun _ => by simp [ht], ?_, h4⟩
      intro e' vals' hm
      rw [ht] at hm
      simp only [List.nil_append, List.mem_singleton] at hm
      rw [Prod.mk.injEq] at hm
      obtain ⟨he1, he2⟩ := hm
      subst he1; subst he2
      exact Or.inr ⟨he, rfl⟩

lemma smInv_callbackOk (vals : List Val) (sm : SM) (h : SMInv sm) :
    SMInv (callbackOk vals sm) := by
  obtain ⟨h1, h2, h3, h4⟩ := h
  unfold callbackOk
  split
  · exact ⟨h1, h2, h3, h4⟩
  next hd =>
    have hd' : sm.done = false := by revert hd; cases sm.done <;> simp
    have ht : sm.term = [] := h1 hd'
    refine ⟨fun hh => Bool.noConfusion hh, fun _ => by simp [ht], ?_,
      fun hh => Bool.noConfusion hh⟩
    intro e' vals' hm
    rw [ht] at hm
    simp only [List.nil_append, List.mem_singleton] at hm
    rw [Prod.mk.injEq] at hm
    exact Or.inl hm.1

lemma smInv_phiOp (sm : SM) (h : SMInv sm) : SMInv (phiOp sm) := by
  obtain ⟨h1, h2, h3, h4⟩ := h
  unfold phiOp
  split
  next hu => exact smInv_callbackErr sm.err _ ⟨h1, h2, h3, h4⟩ (h4 hu)
  next hu =>
    split
    · exact ⟨h1, h2, h3, fun hh => h4 hh⟩
    · exact ⟨h1, h2, h3, fun hh => h4 hh⟩
    · exact ⟨h1, h2, h3, fun hh => h4 hh⟩

lemma smInv_retryOp (sm : SM) (h : SMInv sm) : SMInv (retryOp sm) := by
  obtain ⟨h1, h2, h3, h4⟩ := h
  unfold retryOp
  split
  next ts x heq => exact ⟨h1, h2, h3, fun hh => Bool.noConfusion hh⟩
  next ts heq => exact ⟨h1, h2, h3, h4⟩

lemma smInv_dispatch (prog : Program) (sm : SM) (h : SMInv sm) :
    SMInv (smDispatch prog sm) := by
  have hv := h
  obtain ⟨h1, h2, h3, h4⟩ := h
  unfold smDispatch
  cases prog sm.id sm with
  | next => exact ⟨h1, h2, h3, h4⟩
  | goTo n => exact ⟨h1, h2, h3, h4⟩
  | ret vals => exact smInv_callbackOk vals _ hv
  | throwE e =>
    dsimp only
    by_cases he : e.truthy = true
    · rw [if_pos he]; exact smInv_callbackErr e _ hv he
    · rw [if_neg he]; exact ⟨h1, h2, h3, h4⟩
  | raise e =>
    dsimp only
    by_cases he : e.truthy = true
    · rw [if_pos he]; exact smInv_callbackErr e _ hv he
    · rw [if_neg he]; exact smInv_callbackOk [] _ hv
  | pushH r a => exact ⟨h1, h2, h3, h4⟩
  | pushCA t => exact ⟨h1, h2, h3, h4⟩
  | pushPhi m => exact ⟨h1, h2, h3, h4⟩
  | phi => exact smInv_phiOp _ hv
  | retry => exact smInv_retryOp _ hv

lemma smInv_step (prog : Program) (sm : SM) (h : SMInv sm) : SMInv (smStep prog sm) := by
  unfold smStep
  split
  · exact h
  · obtain ⟨h1, h2, h3, h4⟩ := h
    exact smInv_dispatch prog _ ⟨h1, h2, h3, h4⟩

lemma smInv_run (prog : Program) (n : Nat) :
    ∀ (sm : SM), SMInv sm → SMInv (smRun prog n sm) := by
  induction n with
  | zero => intro sm h; exact h
  | succ n ih => intro sm h; exact ih _ (smInv_step prog sm h)

/-- C1: exactly-once terminal delivery for every workflow instance.  For
every compiled step program — hence regardless of branching, looping or
retry depth — and any number of scheduler re-entries from a fresh
instance: at most one terminal invocation ever happens; once the instance
is done exactly one happened; every terminal invocation is a success with
a null error or a failure carrying the (truthy) error itself; and a
synchronous exception raised inside a step's generated code produces
exactly the state transition of an explicit `throw` of that error — it is
funneled into `callback(error)` and never escapes the engine. -/
theorem engine_terminal_exactly_once (prog : Program) (n : Nat) :
    (smRun prog n SM.start).term.length ≤ 1 ∧
    ((smRun prog n SM.start).done = true → (smRun prog n SM.start).term.length = 1) ∧
    (∀ e vals, (e, vals) ∈ (smRun prog n SM.start).term →
      e = Val.null ∨ (e.truthy = true ∧ vals = [])) ∧
    (∀ (sm : SM) (e : Val), e.truthy = true → sm.done = false →
      prog sm.id { sm with visited := sm.visited ++ [sm.id] } = .raise e →
      smStep prog sm = callbackErr e { sm with visited := sm.visited ++ [sm.id] }) := by
  have hinv := smInv_run prog n SM.start smInv_start
  obtain ⟨h1, h2, h3, h4⟩ := hinv
  refine ⟨?_, h2, h3, ?_⟩
  · by_cases hd : (smRun prog n SM.start).done
    · rw [h2 hd]
    · rw [h1 (by simpa using hd)]
      simp
  · intro sm e he hd hp
    unfold smStep
    rw [hd] at hp ⊢
    simp only [Bool.false_eq_true, if_false]
    unfold smDispatch
    dsimp only
    rw [hp]
    dsimp only
    rw [if_pos he]

/-- A trivially completing workflow: its single step resolves with `true`
(the default value the generated epilogue passes to `callback`). -/
def progTrivial : Program := fun _ _ => .ret [.bool true]

/-- Witness for C1: the trivial workflow completes, and by the theorem the
terminal continuation fired exactly once. -/
theorem engine_terminal_exactly_once_witness :
    (smRun progTrivial 1 SM.start).done = true ∧
    (smRun progTrivial 1 SM.start).term.length = 1 :=
  ⟨rfl, (engine_terminal_exactly_once progTrivial 1).2.1 rfl⟩

/-- The `e instanceof Error` test of the class-filtered catch. -/
def instanceOfError : Val → Bool
  | .error _ => true
  | _ => false

/-- The compiled step program of the repository's class-filter test

    task { catch (e) { return true; } catch (Error e) { fail(); } throw "boom!"; }

obtained by hand-applying the `step_state` macro rules of the sources:
step 1 registers the generic handler (body at 2, merge at 3, rest at 4);
step 2 is the generic handler body `return true;`; step 4 registers the
class-filtered handler (body at 5, merge at 6, rest at 7); step 5 binds
`e = state.err` and, when `e instanceof Error` fails, calls `phi()` to
re-propagate, otherwise runs the handler body (`assert.fail()`, a
synchronous raise); step 6 is the handler's closing `phi`; step 7 is
`throw e;` for the parameter error value; step 8 is the epilogue
`callback(null, true)`. -/
def catchTestProg (e : Val) : Program := fun id sm =>
  match id with
  | 1 => .pushH 2 4
  | 2 => .ret [.bool true]
  | 3 => .phi
  | 4 => .pushH 5 7
  | 5 => if instanceOfError sm.err then .raise (.str "assert failed") else .phi
  | 6 => .phi
  | 7 => .throwE e
  | _ => .ret [.bool true]

/-- C8: a class-filtered catch handler whose class does not match the
propagating error skips its body without running it (step 5 is dispatched
but the body's raise never happens) and re-propagates the error unchanged
(the machine arrives at the generic handler's body, step 2, with `err`
still the original value); the generic handler, nearer on the LIFO stack
to the throw, consumes the plain thrown value and the terminal
continuation receives (null, true). -/
theorem catch_class_filter_repropagates (e : Val)
    (he : instanceOfError e = false)
    (ht : e.truthy = true) :
    (smRun (catchTestProg e) 4 SM.start).id = 2 ∧
    (smRun (catchTestProg e) 4 SM.start).err = e ∧
    (smRun (catchTestProg e) 6 SM.start).term = [(Val.null, [Val.bool true])] ∧
    (smRun (catchTestProg e) 6 SM.start).visited = [1, 4, 7, 5, 2] ∧
    6 ∉ (smRun (catchTestProg e) 6 SM.start).visited := by
  have h1 : smStep (catchTestProg e) SM.start
      = ⟨4, .null, false, [.handler 2 4], [], false, [1], []⟩ := rfl
  have h2 : smStep (catchTestProg e) ⟨4, .null, false, [.handler 2 4], [], false, [1], []⟩
      = ⟨7, .null, false, [.handler 5 7, .handler 2 4], [], false, [1, 4], []⟩ := rfl
  have h3 : smStep (catchTestProg e)
        ⟨7, .null, false, [.handler 5 7, .handler 2 4], [], false, [1, 4], []⟩
      = ⟨5, e, true, [.handler 5 7, .handler 2 4], [], false, [1, 4, 7], []⟩ := by
    have hh : smStep (catchTestProg e)
          ⟨7, .null, false, [.handler 5 7, .handler 2 4], [], false, [1, 4], []⟩
        = if e.truthy = true
          then callbackErr e
            ⟨7, .null, false, [.handler 5 7, .handler 2 4], [], false, [1, 4, 7], []⟩
          else ⟨8, .null, false, [.handler 5 7, .handler 2 4], [], false, [1, 4, 7], []⟩ := rfl
    rw [hh, if_pos ht]
    rfl
  have h4 : smStep (catchTestProg e)
        ⟨5, e, true, [.handler 5 7, .handler 2 4], [], false, [1, 4, 7], []⟩
      = ⟨2, e, true, [.handler 2 4], [], false, [1, 4, 7, 5], []⟩ := by
    have hact : catchTestProg e 5
          ⟨5, e, true, [.handler 5 7, .handler 2 4], [], false, [1, 4, 7, 5], []⟩ = .phi := by
      have hu : catchTestProg e 5
            ⟨5, e, true, [.handler 5 7, .handler 2 4], [], false, [1, 4, 7, 5], []⟩
          = if instanceOfError e then .raise (.str "assert failed") else .phi := rfl
      rw [hu, he]
      rfl
    have hh : smStep (catchTestProg e)
          ⟨5, e, true, [.handler 5 7, .handler 2 4], [], false, [1, 4, 7], []⟩
        = smDispatch (catchTestProg e)
          ⟨5, e, true, [.handler 5 7, .handler 2 4], [], false, [1, 4, 7, 5], []⟩ := rfl
    rw [hh]
    unfold smDispatch
    dsimp only
    rw [hact]
    rfl
  have h5 : smStep (catchTestProg e)
        ⟨2, e, true, [.handler 2 4], [], false, [1, 4, 7, 5], []⟩
      = ⟨2, .null, false, [], [(.null, [.bool true])], true, [1, 4, 7, 5, 2], []⟩ := rfl
  have h6 : smStep (catchTestProg e)
        ⟨2, .null, false, [], [(.null, [.bool true])], true, [1, 4, 7, 5, 2], []⟩
      = ⟨2, .null, false, [], [(.null, [.bool true])], true, [1, 4, 7, 5, 2], []⟩ := rfl
  have hr4 : smRun (catchTestProg e) 4 SM.start
      = smStep (catchTestProg e) (smStep (catchTestProg e)
          (smStep (catchTestProg e) (smStep (catchTestProg e) SM.start))) := rfl
  have hr6 : smRun (catchTestProg e) 6 SM.start
      = smStep (catchTestProg e) (smStep (catchTestProg e) (smStep (catchTestProg e)
          (smStep (catchTestProg e) (smStep (catchTestProg e)
            (smStep (catchTestProg e) SM.start))))) := rfl
  rw [hr4, hr6, h1, h2, h3, h4, h5, h6]
  refine ⟨rfl, rfl, rfl, rfl, by decide⟩

/-- Witness for C8 at the concrete thrown value "boom!" (a plain string,
not an Error instance), as in the repository's test. -/
theorem catch_class_filter_repropagates_witness :
    (instanceOfError (Val.str "boom!") = false) ∧
    ((Val.str "boom!").truthy = true) ∧
    ((smRun (catchTestProg (.str "boom!")) 4 SM.start).id = 2 ∧
      (smRun (catchTestProg (.str "boom!")) 4 SM.start).err = .str "boom!" ∧
      (smRun (catchTestProg (.str "boom!")) 6 SM.start).term
        = [(Val.null, [Val.bool true])] ∧
      (smRun (catchTestProg (.str "boom!")) 6 SM.start).visited = [1, 4, 7, 5, 2] ∧
      6 ∉ (smRun (catchTestProg (.str "boom!")) 6 SM.start).visited) :=
  ⟨rfl, rfl, catch_class_filter_repropagates (.str "boom!") rfl rfl⟩

end Cspjs
